import Mathlib

set_option maxHeartbeats 1000000

/-!
Verification development for the kombine ensemble MCMC sampler
(src/kombine/sampler.py).  The Python class `Sampler` keeps an ensemble of
`nwalkers` walker positions in `dim` dimensions, a cumulative iteration
counter, four growing history arrays and an adaptive KDE proposal, and its
`sample` method runs the propose/accept/store/rebuild loop.

Three models of the same source code appear below, at different levels of
observational detail:

* `Kombine` - a typed, purely functional model.  Scalars are a parameter `R`
  (exact rationals instantiate it for concrete evaluation; any linear ordered
  field instantiates it for algebraic facts; the NaN-extended type `FVal`
  instantiates it for IEEE-NaN comparison behaviour).  Arrays of fixed shape
  `(N,)` and `(N,D)` become functions out of `Fin N` and `Fin N x Fin D`, the
  growing histories become lists, and the two numpy random sources (the
  uniform stream consumed by `np.random.rand` and the proposal draw) become
  explicit oracles in the environment.

* `KShape` - a shape-dynamic model.  Arrays are plain lists, elementwise
  arithmetic performs the numpy 1-d broadcast check and fails on mismatched
  lengths, and a failing operation aborts the call carrying the sampler state
  as it was at the moment of failure (Python exception semantics: the object
  keeps whatever mutations already happened).

* `KStore` - a store-passing model.  The caller-visible arrays live in an
  explicit store addressed by references, so that numpy object identity
  (copy versus alias, in-place update versus rebinding of a local) becomes
  observable.

-/

namespace Kombine

/-- External capabilities handed to the sampler: the two batch evaluators
(`lnpriorfn`, `lnlikefn`), the adaptive proposal collaborator (`kdeEval`
models evaluation of the log density of the proposal built from a given
snapshot of positions; `kdeDraw` models drawing a fresh candidate batch from
that proposal at a given global step, which encodes the draw randomness), the
mathematical function `log` standing for `np.log`, and `rand`, the global
stream of uniform variates consumed by `np.random.rand` (index = how many
variates were consumed before). -/
structure Env (N D : ℕ) (R : Type) where
  lnprior : (Fin N → Fin D → R) → Fin N → R
  lnlike : (Fin N → Fin D → R) → Fin N → R
  kdeEval : (Fin N → Fin D → R) → (Fin N → Fin D → R) → Fin N → R
  kdeDraw : (Fin N → Fin D → R) → ℕ → Fin N → Fin D → R
  log : R → R
  rand : ℕ → R

/-- The per-walker data threaded through the loop of `Sampler.sample`: the
locals `p`, `lnprior`, `lnlike` and `lnq` of the Python method. -/
structure Walkers (N D : ℕ) (R : Type) where
  p : Fin N → Fin D → R
  lnprior : Fin N → R
  lnlike : Fin N → R
  lnq : Fin N → R

/-- The mutable state of a `Sampler` object: the cumulative iteration
counter, the current proposal (`_kde`, recorded by the position snapshot it
was built from; `none` models the Python `None`), the four history sequences
(`_chain`, `_lnpost`, `_lnprop`, `accepted`) and the number of uniform
variates consumed so far from the global random stream. -/
structure SState (N D : ℕ) (R : Type) where
  iterations : ℕ
  kde : Option (Fin N → Fin D → R)
  chain : List (Fin N → Fin D → R)
  lnpost : List (Fin N → R)
  lnprop : List (Fin N → R)
  accepted : List (Fin N → Bool)
  rngUsed : ℕ

/-- Sampler construction (`Sampler.__init__`): counter at zero, no proposal
yet, all four histories of length zero.  `nwalkers` and `dim` live in the
type indices. -/
def initState (N D : ℕ) (R : Type) : SState N D R :=
  { iterations := 0, kde := none, chain := [], lnpost := [], lnprop := [],
    accepted := [], rngUsed := 0 }

variable {N D : ℕ} {R : Type}

/-- Line 126: `p_p = self._kde.draw(N=self.nwalkers)`, the candidate batch
for the step that starts with counter value `s.iterations`. -/
def draws (env : Env N D R) (kde : Fin N → Fin D → R) (s : SState N D R) :
    Fin N → Fin D → R :=
  env.kdeDraw kde s.iterations

variable [Add R] [Sub R] [Zero R] [LT R]
variable [DecidableRel ((· < ·) : R → R → Prop)]

/-- Line 135: `ln_mh_ratio = lnprior_p + lnlike_p - lnprior - lnlike + lnq -
lnq_p`, with the candidate quantities evaluated at `p_p` (lines 130-132). -/
def lnRatioFn (env : Env N D R) (kde : Fin N → Fin D → R)
    (cur : Walkers N D R) (s : SState N D R) : Fin N → R :=
  fun w =>
    env.lnprior (draws env kde s) w + env.lnlike (draws env kde s) w
      - cur.lnprior w - cur.lnlike w + cur.lnq w
      - env.kdeEval kde (draws env kde s) w

/-- Line 138: `acc = ln_mh_ratio > 0`, the unconditional acceptances. -/
def accUncond (env : Env N D R) (kde : Fin N → Fin D → R)
    (cur : Walkers N D R) (s : SState N D R) : Fin N → Bool :=
  fun w => decide (0 < lnRatioFn env kde cur s w)

/-- How many walkers before `w` (in walker index order) are in the `worse`
mask.  `np.random.rand(nworse)` hands its variates to the masked positions in
index order, so the variate of a worse walker `w` is the one at offset
`worseCountBefore w` in that batch. -/
def worseCountBefore (env : Env N D R) (kde : Fin N → Fin D → R)
    (cur : Walkers N D R) (s : SState N D R) (w : Fin N) : ℕ :=
  (Finset.univ.filter
    (fun j : Fin N => j < w ∧ accUncond env kde cur s j = false)).card

/-- Line 142: `nworse = np.sum(worse)`, the number of walkers that were not
unconditionally accepted. -/
def nworse (env : Env N D R) (kde : Fin N → Fin D → R)
    (cur : Walkers N D R) (s : SState N D R) : ℕ :=
  (Finset.univ.filter
    (fun j : Fin N => accUncond env kde cur s j = false)).card

/-- Lines 138-143: the final acceptance mask.  A walker with positive log
ratio is accepted outright; each remaining walker compares its log ratio
against the log of its own fresh uniform variate from the global stream. -/
def accFn (env : Env N D R) (kde : Fin N → Fin D → R)
    (cur : Walkers N D R) (s : SState N D R) : Fin N → Bool :=
  fun w =>
    if accUncond env kde cur s w then true
    else
      decide (env.log (env.rand (s.rngUsed + worseCountBefore env kde cur s w))
        < lnRatioFn env kde cur s w)

/-- Lines 147-150: the four masked assignments applied to the accepted
walkers (without the surrounding `np.any` guard). -/
def maskedWalkers (env : Env N D R) (kde : Fin N → Fin D → R)
    (cur : Walkers N D R) (s : SState N D R) : Walkers N D R where
  p := fun w => if accFn env kde cur s w then draws env kde s w else cur.p w
  lnprior := fun w =>
    if accFn env kde cur s w then env.lnprior (draws env kde s) w
    else cur.lnprior w
  lnlike := fun w =>
    if accFn env kde cur s w then env.lnlike (draws env kde s) w
    else cur.lnlike w
  lnq := fun w =>
    if accFn env kde cur s w then env.kdeEval kde (draws env kde s) w
    else cur.lnq w

/-- Line 146: `if np.any(acc):` guarding the masked assignments of lines
147-150. -/
def updWalkers (env : Env N D R) (kde : Fin N → Fin D → R)
    (cur : Walkers N D R) (s : SState N D R) : Walkers N D R :=
  if ∃ w, accFn env kde cur s w = true then maskedWalkers env kde cur s
  else cur

/-- Lines 153-158: record the post-acceptance snapshot into the history slot
indexed by the current counter, then increment the counter; the count of
consumed uniforms advances by `nworse` (line 143 consumed that many). -/
def storeStep (env : Env N D R) (kde : Fin N → Fin D → R)
    (cur : Walkers N D R) (s : SState N D R) : SState N D R :=
  let cur1 := updWalkers env kde cur s
  { s with
    chain := s.chain.set s.iterations cur1.p
    lnpost := s.lnpost.set s.iterations (fun w => cur1.lnprior w + cur1.lnlike w)
    lnprop := s.lnprop.set s.iterations cur1.lnq
    accepted := s.accepted.set s.iterations (accFn env kde cur s)
    iterations := s.iterations + 1
    rngUsed := s.rngUsed + nworse env kde cur s }

/-- Lines 124-163: one pass of the loop body.  The condition of line 161
reads the counter after the increment of line 158, so it is
`(s.iterations + 1) % update_interval == 0`; on a rebuild the proposal is
reconstructed from the post-acceptance positions and `lnq` is rebound to the
evaluation of the new proposal on those positions (lines 162-163). -/
def stepBody (env : Env N D R) (ui : ℕ) (kde : Fin N → Fin D → R)
    (cur : Walkers N D R) (s : SState N D R) :
    (Fin N → Fin D → R) × Walkers N D R × SState N D R :=
  let cur1 := updWalkers env kde cur s
  let s1 := storeStep env kde cur s
  if (s.iterations + 1) % ui = 0 then
    let kde1 := cur1.p
    (kde1, { cur1 with lnq := env.kdeEval kde1 cur1.p }, s1)
  else
    (kde, cur1, s1)

/-- The `for i in xrange(int(iterations))` loop of line 124, threading the
proposal, the walker data and the sampler state. -/
def runSteps (env : Env N D R) (ui : ℕ) :
    ℕ → (Fin N → Fin D → R) → Walkers N D R → SState N D R →
      (Fin N → Fin D → R) × Walkers N D R × SState N D R
  | 0, kde, cur, s => (kde, cur, s)
  | n + 1, kde, cur, s =>
      runSteps env ui n (stepBody env ui kde cur s).1
        (stepBody env ui kde cur s).2.1 (stepBody env ui kde cur s).2.2

/-- Lines 115-122: grow the four histories by `k` zero-initialized slots
appended at the tail (the `np.concatenate` with `np.zeros` calls). -/
def growHist (s : SState N D R) (k : ℕ) : SState N D R :=
  { s with
    chain := s.chain ++ List.replicate k (fun _ _ => 0)
    lnpost := s.lnpost ++ List.replicate k (fun _ => 0)
    lnprop := s.lnprop ++ List.replicate k (fun _ => (0 : R))
    accepted := s.accepted ++ List.replicate k (fun _ => false) }

/-- Resolution of an optional caller-supplied value against the computation
the source would otherwise perform (the `if x is None` pattern of lines
98-112); the supplied value is trusted verbatim. -/
def resolveOpt {α : Type} (o : Option α) (v : α) : α :=
  match o with
  | some x => x
  | none => v

/-- Lines 95-165: the whole of `Sampler.sample`.  The prologue copies `p0`,
builds a proposal when none exists (from the initial positions), resolves the
three scalar arrays (trusting any supplied one verbatim), grows the four
histories, runs the loop, and returns the mutated sampler state together with
the final walker data (the returned quadruple of line 165). -/
def sample (env : Env N D R) (s : SState N D R) (p0 : Fin N → Fin D → R)
    (lnprior0 lnlike0 lnq0 : Option (Fin N → R)) (iters ui : ℕ) :
    SState N D R × Walkers N D R :=
  let p := p0
  let kde0 := resolveOpt s.kde p
  let lnprior1 := resolveOpt lnprior0 (env.lnprior p)
  let lnlike1 := resolveOpt lnlike0 (env.lnlike p)
  let lnq1 := resolveOpt lnq0 (env.kdeEval kde0 p)
  let sG := growHist { s with kde := some kde0 } iters
  let out := runSteps env ui iters kde0
    { p := p, lnprior := lnprior1, lnlike := lnlike1, lnq := lnq1 } sG
  ({ out.2.2 with kde := some out.1 }, out.2.1)

end Kombine

/-- NaN-extended scalars, the numeric model used to reason about IEEE NaN
behaviour of the float arrays of the source: `nan` absorbs the arithmetic
used by the acceptance formula and compares false against everything
(including itself), exactly as an IEEE NaN does under `+`, `-` and `>`. -/
inductive FVal (R : Type) where
  | nan : FVal R
  | fin : R → FVal R
deriving DecidableEq

namespace FVal

variable {R : Type}

/-- IEEE addition on NaN-extended scalars: NaN propagates. -/
def add [Add R] : FVal R → FVal R → FVal R
  | fin x, fin y => fin (x + y)
  | _, _ => nan

/-- IEEE subtraction on NaN-extended scalars: NaN propagates. -/
def sub [Sub R] : FVal R → FVal R → FVal R
  | fin x, fin y => fin (x - y)
  | _, _ => nan

/-- IEEE strict comparison: any comparison against NaN is false. -/
def lt [LT R] : FVal R → FVal R → Prop
  | fin x, fin y => x < y
  | nan, _ => False
  | _, nan => False

instance [Add R] : Add (FVal R) := ⟨add⟩

instance [Sub R] : Sub (FVal R) := ⟨sub⟩

instance [Zero R] : Zero (FVal R) := ⟨fin 0⟩

instance [LT R] : LT (FVal R) := ⟨lt⟩

instance [LT R] [DecidableRel ((· < ·) : R → R → Prop)] :
    DecidableRel ((· < ·) : FVal R → FVal R → Prop) := fun a b =>
  match a, b with
  | nan, nan => isFalse (fun h => h)
  | nan, fin _ => isFalse (fun h => h)
  | fin _, nan => isFalse (fun h => h)
  | fin x, fin y => inferInstanceAs (Decidable (x < y))

end FVal

namespace KShape

/-- One-dimensional numpy array of the shape model. -/
abbrev Vec := List ℤ

/-- Two-dimensional numpy array of the shape model. -/
abbrev Mat := List (List ℤ)

/-- External capabilities of the shape model, with the same roles as in
`Kombine.Env` but over untyped arrays. -/
structure EnvSh where
  lnprior : Mat → Vec
  lnlike : Mat → Vec
  kdeEval : Mat → Mat → Vec
  kdeDraw : Mat → ℕ → Mat
  log : ℤ → ℤ
  rand : ℕ → ℤ

/-- Sampler state of the shape model; `nw` and `dim` are the `nwalkers` and
`dim` attributes fixed at construction, and the `accepted` history keeps the
0/1 floats the source stores. -/
structure SStateSh where
  nw : ℕ
  dim : ℕ
  iterations : ℕ
  kde : Option Mat
  chain : List Mat
  lnpost : List Vec
  lnprop : List Vec
  accepted : List Vec
  rngUsed : ℕ

/-- Construction of the sampler in the shape model. -/
def initSh (n d : ℕ) : SStateSh :=
  { nw := n, dim := d, iterations := 0, kde := none, chain := [],
    lnpost := [], lnprop := [], accepted := [], rngUsed := 0 }

/-- Elementwise binary operation on 1-d arrays with the numpy broadcast
rule: equal lengths operate pointwise, a length-one operand broadcasts, and
anything else raises (modeled as `none`). -/
def bcast (f : ℤ → ℤ → ℤ) (a b : Vec) : Option Vec :=
  if a.length = b.length then some (List.zipWith f a b)
  else if a.length = 1 then some (b.map (f (a.headD 0)))
  else if b.length = 1 then some (a.map (fun x => f x (b.headD 0)))
  else none

/-- Line 135 of the source in the shape model, associating exactly as the
Python expression does: `((((lnprior_p + lnlike_p) - lnprior) - lnlike) +
lnq) - lnq_p`, every operation subject to the broadcast check. -/
def ratioSh (lnprior_p lnlike_p lnprior lnlike lnq lnq_p : Vec) : Option Vec :=
  (bcast (· + ·) lnprior_p lnlike_p).bind fun t1 =>
  (bcast (· - ·) t1 lnprior).bind fun t2 =>
  (bcast (· - ·) t2 lnlike).bind fun t3 =>
  (bcast (· + ·) t3 lnq).bind fun t4 =>
  bcast (· - ·) t4 lnq_p

/-- Lines 141-143 fused: keep the flags that are already true, and give each
remaining position its own fresh uniform variate in index order, comparing
the log ratio against its log.  The flag list always has the length of the
ratio list because line 138 built it by an elementwise comparison. -/
def accResolve (log : ℤ → ℤ) (rand : ℕ → ℤ) :
    List ℤ → List Bool → ℕ → List Bool
  | _, [], _ => []
  | [], _ :: _, _ => []
  | r :: rs, a :: as', t =>
      if a then a :: accResolve log rand rs as' t
      else decide (log (rand t) < r) :: accResolve log rand rs as' (t + 1)

/-- Boolean-mask assignment `target[mask] = src[mask]` on 1-d arrays: numpy
requires the mask length to match both array lengths, else it raises. -/
def maskAsgV (target : Vec) (mask : List Bool) (src : Vec) : Option Vec :=
  if mask.length = target.length ∧ mask.length = src.length then
    some ((List.zip mask (List.zip target src)).map
      (fun x => if x.1 then x.2.2 else x.2.1))
  else none

/-- Boolean-mask row assignment `target[mask] = src[mask]` on 2-d arrays:
the mask length must match both row counts and every copied row must fit the
row it replaces. -/
def maskAsgM (target : Mat) (mask : List Bool) (src : Mat) : Option Mat :=
  if (mask.length = target.length ∧ mask.length = src.length) ∧
      ((List.zip mask (List.zip target src)).all
        (fun x => !x.1 || (x.2.1.length == x.2.2.length))) = true then
    some ((List.zip mask (List.zip target src)).map
      (fun x => if x.1 then x.2.2 else x.2.1))
  else none

/-- Assignment into one preallocated history slot of width `n`
(`hist[i, :] = v`): the slot must exist and the value must fill it exactly
or be a broadcastable singleton. -/
def setSlotV (hist : List Vec) (i : ℕ) (v : Vec) (n : ℕ) : Option (List Vec) :=
  if i < hist.length then
    if v.length = n then some (hist.set i v)
    else if v.length = 1 then some (hist.set i (List.replicate n (v.headD 0)))
    else none
  else none

/-- Assignment into one preallocated `(n, d)` history slot
(`hist[i, :, :] = v`); the ensemble matrix keeps its shape throughout a run,
so only the exact-shape assignment is modeled. -/
def setSlotM (hist : List Mat) (i : ℕ) (v : Mat) (n d : ℕ) :
    Option (List Mat) :=
  if i < hist.length ∧ v.length = n ∧ (v.all (fun row => row.length == d)) = true
  then some (hist.set i v)
  else none

/-- Lines 115-122 in the shape model: grow the four histories by `k`
zero-filled slots shaped from the `nwalkers` and `dim` attributes. -/
def growSh (s : SStateSh) (k : ℕ) : SStateSh :=
  { s with
    chain := s.chain ++
      List.replicate k (List.replicate s.nw (List.replicate s.dim 0))
    lnpost := s.lnpost ++ List.replicate k (List.replicate s.nw 0)
    lnprop := s.lnprop ++ List.replicate k (List.replicate s.nw 0)
    accepted := s.accepted ++ List.replicate k (List.replicate s.nw 0) }

/-- Lines 124-163 in the shape model.  A failing numpy operation aborts the
step and the whole call, carrying the sampler state as mutated so far; the
step returns the new proposal snapshot, the four walker arrays and the new
state otherwise. -/
def stepSh (env : EnvSh) (ui : ℕ) (kde p : Mat) (lnprior lnlike lnq : Vec)
    (s : SStateSh) :
    Except SStateSh (Mat × Mat × Vec × Vec × Vec × SStateSh) :=
  let p_p := env.kdeDraw kde s.iterations
  let lnprior_p := env.lnprior p_p
  let lnlike_p := env.lnlike p_p
  let lnq_p := env.kdeEval kde p_p
  match ratioSh lnprior_p lnlike_p lnprior lnlike lnq lnq_p with
  | none => .error s
  | some lnr =>
    let acc0 := lnr.map (fun x => decide (0 < x))
    let nw := acc0.count false
    let acc := accResolve env.log env.rand lnr acc0 s.rngUsed
    let s0 := { s with rngUsed := s.rngUsed + nw }
    let updRes : Option (Mat × Vec × Vec × Vec) :=
      if acc.any id then
        (maskAsgM p acc p_p).bind fun p1 =>
        (maskAsgV lnprior acc lnprior_p).bind fun a1 =>
        (maskAsgV lnlike acc lnlike_p).bind fun b1 =>
        (maskAsgV lnq acc lnq_p).bind fun c1 => some (p1, a1, b1, c1)
      else some (p, lnprior, lnlike, lnq)
    match updRes with
    | none => .error s0
    | some (p1, lnprior1, lnlike1, lnq1) =>
      match setSlotM s0.chain s0.iterations p1 s0.nw s0.dim with
      | none => .error s0
      | some ch =>
        let s1 := { s0 with chain := ch }
        match bcast (· + ·) lnprior1 lnlike1 with
        | none => .error s1
        | some lp =>
          match setSlotV s1.lnpost s1.iterations lp s1.nw with
          | none => .error s1
          | some lpH =>
            let s2 := { s1 with lnpost := lpH }
            match setSlotV s2.lnprop s2.iterations lnq1 s2.nw with
            | none => .error s2
            | some lqH =>
              let s3 := { s2 with lnprop := lqH }
              match setSlotV s3.accepted s3.iterations
                  (acc.map (fun b => if b then (1 : ℤ) else 0)) s3.nw with
              | none => .error s3
              | some acH =>
                let s4 :=
                  { s3 with accepted := acH, iterations := s3.iterations + 1 }
                if s4.iterations % ui = 0 then
                  let kde1 := p1
                  .ok (kde1, p1, lnprior1, lnlike1, env.kdeEval kde1 p1,
                    { s4 with kde := some kde1 })
                else
                  .ok (kde, p1, lnprior1, lnlike1, lnq1, s4)

/-- The step loop of line 124 in the shape model; an error in any step aborts
the call. -/
def runSh (env : EnvSh) (ui : ℕ) :
    ℕ → Mat → Mat → Vec → Vec → Vec → SStateSh →
      Except SStateSh (Mat × Mat × Vec × Vec × Vec × SStateSh)
  | 0, kde, p, a, b, c, s => .ok (kde, p, a, b, c, s)
  | n + 1, kde, p, a, b, c, s =>
    match stepSh env ui kde p a b c s with
    | .error e => .error e
    | .ok (kde1, p1, a1, b1, c1, s1) => runSh env ui n kde1 p1 a1 b1 c1 s1

/-- Lines 95-165 in the shape model.  The result of a successful call is the
returned quadruple together with the final state; a failed call carries the
state as mutated up to the failure. -/
def sampleSh (env : EnvSh) (s : SStateSh) (p0 : Mat)
    (lnprior0 lnlike0 lnq0 : Option Vec) (iters ui : ℕ) :
    Except SStateSh (Mat × Vec × Vec × Vec × SStateSh) :=
  let p := p0
  let kde0 := match s.kde with
    | some kk => kk
    | none => p
  let lnprior1 := match lnprior0 with
    | some v => v
    | none => env.lnprior p
  let lnlike1 := match lnlike0 with
    | some v => v
    | none => env.lnlike p
  let lnq1 := match lnq0 with
    | some v => v
    | none => env.kdeEval kde0 p
  let sG := growSh { s with kde := some kde0 } iters
  match runSh env ui iters kde0 p lnprior1 lnlike1 lnq1 sG with
  | .error e => .error e
  | .ok (_, p1, a1, b1, c1, s1) => .ok (p1, a1, b1, c1, s1)

/-- Tests whether a call aborted. -/
def isErr {α β : Type} : Except α β → Bool
  | .error _ => true
  | .ok _ => false

/-- Reads the state carried by an aborted call (with a default for the
impossible branch). -/
def errPayload {α β : Type} (d : α) : Except α β → α
  | .error a => a
  | .ok _ => d

/-- Concrete shape-model environment with two walkers in one dimension used
for concrete evaluations: evaluators return well-shaped zero vectors and the
proposal draws a fixed well-shaped batch. -/
def envSh2 : EnvSh where
  lnprior := fun _ => [0, 0]
  lnlike := fun _ => [0, 0]
  kdeEval := fun _ _ => [0, 0]
  kdeDraw := fun _ _ => [[0], [0]]
  log := fun _ => 0
  rand := fun _ => 1

end KShape

namespace KStore

open Kombine

/-- Explicit store of numpy array objects: vector objects of shape `(N,)`
and matrix objects of shape `(N, D)`, addressed by allocation order.  Object
identity of the caller-visible arrays is exactly a reference into this
store. -/
structure Store (N D : ℕ) where
  vecs : List (Fin N → ℤ)
  mats : List (Fin N → Fin D → ℤ)

variable {N D : ℕ}

/-- Reads the vector object behind a reference. -/
def readV (st : Store N D) (r : ℕ) : Fin N → ℤ :=
  st.vecs.getD r (fun _ => 0)

/-- In-place update of the vector object behind a reference. -/
def writeV (st : Store N D) (r : ℕ) (v : Fin N → ℤ) : Store N D :=
  { st with vecs := st.vecs.set r v }

/-- Allocates a fresh vector object, returning the new store and the fresh
reference. -/
def allocV (st : Store N D) (v : Fin N → ℤ) : Store N D × ℕ :=
  ({ st with vecs := st.vecs ++ [v] }, st.vecs.length)

/-- Reads the matrix object behind a reference. -/
def readM (st : Store N D) (r : ℕ) : Fin N → Fin D → ℤ :=
  st.mats.getD r (fun _ _ => 0)

/-- In-place update of the matrix object behind a reference. -/
def writeM (st : Store N D) (r : ℕ) (m : Fin N → Fin D → ℤ) : Store N D :=
  { st with mats := st.mats.set r m }

/-- Allocates a fresh matrix object. -/
def allocM (st : Store N D) (m : Fin N → Fin D → ℤ) : Store N D × ℕ :=
  ({ st with mats := st.mats ++ [m] }, st.mats.length)

/-- One loop pass of `Sampler.sample` in the store model.  The Python locals
`p`, `lnprior` and `lnlike` are array objects that are only ever mutated in
place, so their references `pR`, `aR`, `bR` are fixed parameters; the local
`lnq` is rebound to a freshly allocated array by line 163 on a rebuild, so
its reference `qR` is threaded.  The acceptance logic and the history
bookkeeping reuse the pure per-step functions, applied to the array contents
read from the store. -/
def stepStore (env : Env N D ℤ) (ui : ℕ) (pR aR bR : ℕ)
    (kde : Fin N → Fin D → ℤ) (qR : ℕ) (st : Store N D) (s : SState N D ℤ) :
    (Fin N → Fin D → ℤ) × ℕ × Store N D × SState N D ℤ :=
  let cur : Walkers N D ℤ :=
    { p := readM st pR, lnprior := readV st aR, lnlike := readV st bR,
      lnq := readV st qR }
  let s1 := storeStep env kde cur s
  let st1 :=
    if ∃ w, accFn env kde cur s w = true then
      let m := maskedWalkers env kde cur s
      writeM (writeV (writeV (writeV st aR m.lnprior) bR m.lnlike) qR m.lnq)
        pR m.p
    else st
  if (s.iterations + 1) % ui = 0 then
    let kde1 := (updWalkers env kde cur s).p
    let a := allocV st1 (env.kdeEval kde1 (updWalkers env kde cur s).p)
    (kde1, a.2, a.1, s1)
  else
    (kde, qR, st1, s1)

/-- The step loop of line 124 in the store model. -/
def runStore (env : Env N D ℤ) (ui : ℕ) (pR aR bR : ℕ) :
    ℕ → (Fin N → Fin D → ℤ) → ℕ → Store N D → SState N D ℤ →
      (Fin N → Fin D → ℤ) × ℕ × Store N D × SState N D ℤ
  | 0, kde, qR, st, s => (kde, qR, st, s)
  | n + 1, kde, qR, st, s =>
      runStore env ui pR aR bR n (stepStore env ui pR aR bR kde qR st s).1
        (stepStore env ui pR aR bR kde qR st s).2.1
        (stepStore env ui pR aR bR kde qR st s).2.2.1
        (stepStore env ui pR aR bR kde qR st s).2.2.2

/-- Result of a store-model call: final sampler state, final store, and the
references of the four arrays the call returns. -/
structure RunOut (N D : ℕ) where
  state : SState N D ℤ
  store : Store N D
  pRef : ℕ
  lnpriorRef : ℕ
  lnlikeRef : ℕ
  lnqRef : ℕ

/-- The whole of `Sampler.sample` in the store model.  Line 95 allocates a
fresh copy of the object behind `p0`; a supplied optional array is used
verbatim, so its local is the very same object (the same reference), while a
missing one is computed into a fresh allocation. -/
def sampleStore (env : Env N D ℤ) (s : SState N D ℤ) (st : Store N D)
    (p0 : ℕ) (lnprior0 lnlike0 lnq0 : Option ℕ) (iters ui : ℕ) :
    RunOut N D :=
  let a0 := allocM st (readM st p0)
  let st1 := a0.1
  let pR := a0.2
  let kde0 := resolveOpt s.kde (readM st1 pR)
  let r1 := match lnprior0 with
    | some r => (st1, r)
    | none => allocV st1 (env.lnprior (readM st1 pR))
  let st2 := r1.1
  let aR := r1.2
  let r2 := match lnlike0 with
    | some r => (st2, r)
    | none => allocV st2 (env.lnlike (readM st2 pR))
  let st3 := r2.1
  let bR := r2.2
  let r3 := match lnq0 with
    | some r => (st3, r)
    | none => allocV st3 (env.kdeEval kde0 (readM st3 pR))
  let st4 := r3.1
  let qR := r3.2
  let sG := growHist { s with kde := some kde0 } iters
  let out := runStore env ui pR aR bR iters kde0 qR st4 sG
  { state := { out.2.2.2 with kde := some out.1 }, store := out.2.2.1,
    pRef := pR, lnpriorRef := aR, lnlikeRef := bR, lnqRef := out.2.1 }

end KStore

namespace Kombine

/-- Concrete environment over exact rationals with one walker in one
dimension, used for concrete evaluations: the prior of a position is its
single coordinate, everything else returns zero, the proposal always draws
the zero position, every uniform variate is one and its modeled log is
zero. -/
def envW : Env 1 1 ℤ where
  lnprior := fun p w => p w 0
  lnlike := fun _ _ => 0
  kdeEval := fun _ _ _ => 0
  kdeDraw := fun _ _ _ _ => 0
  log := fun _ => 0
  rand := fun _ => 1

/-- A concrete proposal snapshot. -/
def kW : Fin 1 → Fin 1 → ℤ := fun _ _ => 3

/-- A concrete ensemble position distinct from `kW`. -/
def pW : Fin 1 → Fin 1 → ℤ := fun _ _ => 5

/-- Concrete walker data whose log ratio under `envW` and `kW` is zero. -/
def curZ : Walkers 1 1 ℤ :=
  { p := pW, lnprior := fun _ => 0, lnlike := fun _ => 0, lnq := fun _ => 0 }

/-- Concrete walker data whose log ratio under `envW` and `kW` is one. -/
def curP : Walkers 1 1 ℤ :=
  { p := pW, lnprior := fun _ => 0, lnlike := fun _ => 0, lnq := fun _ => 1 }

/-- Concrete sampler state after one earlier completed step: counter one and
one filled history slot, current proposal `kW`. -/
def sW : SState 1 1 ℤ :=
  { iterations := 0, kde := some kW, chain := [fun _ _ => 0],
    lnpost := [fun _ => 0], lnprop := [fun _ => 0],
    accepted := [fun _ => false], rngUsed := 0 }

/-- Concrete sampler state with counter one, as left by a completed one-step
call: history length one, proposal `kW`. -/
def s5 : SState 1 1 ℤ :=
  { iterations := 1, kde := some kW, chain := [fun _ _ => 0],
    lnpost := [fun _ => 0], lnprop := [fun _ => 0],
    accepted := [fun _ => false], rngUsed := 0 }

/-- The walker data resolved by the prologue of a fresh call of `sample`
with initial positions `pW` under `envW` (no optional arrays supplied, no
prior proposal, so the proposal is built from `pW` itself). -/
def curInit : Walkers 1 1 ℤ :=
  { p := pW, lnprior := envW.lnprior pW, lnlike := envW.lnlike pW,
    lnq := envW.kdeEval pW pW }

/-- The sampler state right after the growth phase of a fresh two-step call
of `sample`: histories pre-grown to length two, counter still zero. -/
def sGrown : SState 1 1 ℤ :=
  growHist { initState 1 1 ℤ with kde := some pW } 2

/-- Concrete NaN-model environment: the prior evaluator returns NaN at every
position (an out-of-domain prior), everything else is finite. -/
def envN : Env 1 1 (FVal ℤ) where
  lnprior := fun _ _ => FVal.nan
  lnlike := fun _ _ => FVal.fin 0
  kdeEval := fun _ _ _ => FVal.fin 0
  kdeDraw := fun _ _ _ _ => FVal.fin 0
  log := fun x => x
  rand := fun _ => FVal.fin 1

/-- Concrete NaN-model proposal snapshot. -/
def kN : Fin 1 → Fin 1 → FVal ℤ := fun _ _ => FVal.fin 0

/-- Concrete NaN-model walker data, all finite. -/
def curN : Walkers 1 1 (FVal ℤ) :=
  { p := fun _ _ => FVal.fin 2, lnprior := fun _ => FVal.fin 0,
    lnlike := fun _ => FVal.fin 0, lnq := fun _ => FVal.fin 0 }

/-- Concrete NaN-model sampler state with one history slot. -/
def sN : SState 1 1 (FVal ℤ) :=
  { iterations := 0, kde := some kN, chain := [fun _ _ => FVal.fin 0],
    lnpost := [fun _ => FVal.fin 0], lnprop := [fun _ => FVal.fin 0],
    accepted := [fun _ => false], rngUsed := 0 }

end Kombine

namespace FVal

variable {R : Type}

/-- Nothing is IEEE-below NaN. -/
theorem not_lt_nan [LT R] (a : FVal R) : ¬ a < nan := by
  cases a <;> exact fun h => h

end FVal

namespace Kombine

variable {N D : ℕ} {R : Type} [Add R] [Sub R] [Zero R] [LT R]
variable [DecidableRel ((· < ·) : R → R → Prop)]

/-- A walker that the mask rejects keeps all four of its current values
through the masked update of lines 146-150. -/
theorem updWalkers_eq_of_not_acc (env : Env N D R) (kde : Fin N → Fin D → R)
    (cur : Walkers N D R) (s : SState N D R) (w : Fin N)
    (h : accFn env kde cur s w = false) :
    (updWalkers env kde cur s).p w = cur.p w ∧
    (updWalkers env kde cur s).lnprior w = cur.lnprior w ∧
    (updWalkers env kde cur s).lnlike w = cur.lnlike w ∧
    (updWalkers env kde cur s).lnq w = cur.lnq w := by
  unfold updWalkers
  split
  · refine ⟨?_, ?_, ?_, ?_⟩ <;> simp [maskedWalkers, h]
  · exact ⟨rfl, rfl, rfl, rfl⟩

/-- A walker that the mask accepts receives all four candidate values
through the masked update of lines 146-150. -/
theorem updWalkers_eq_of_acc (env : Env N D R) (kde : Fin N → Fin D → R)
    (cur : Walkers N D R) (s : SState N D R) (w : Fin N)
    (h : accFn env kde cur s w = true) :
    (updWalkers env kde cur s).p w = draws env kde s w ∧
    (updWalkers env kde cur s).lnprior w = env.lnprior (draws env kde s) w ∧
    (updWalkers env kde cur s).lnlike w = env.lnlike (draws env kde s) w ∧
    (updWalkers env kde cur s).lnq w = env.kdeEval kde (draws env kde s) w := by
  unfold updWalkers
  split
  · refine ⟨?_, ?_, ?_, ?_⟩ <;> simp [maskedWalkers, h]
  · next hno => exact absurd ⟨w, h⟩ hno

/-- The unconditional acceptance flag is false exactly when the log ratio is
not positive. -/
theorem accUncond_eq_false_iff (env : Env N D R) (kde : Fin N → Fin D → R)
    (cur : Walkers N D R) (s : SState N D R) (w : Fin N) :
    accUncond env kde cur s w = false ↔ ¬ 0 < lnRatioFn env kde cur s w := by
  simp [accUncond]

/-- Among the walkers that miss unconditional acceptance, an earlier walker
has a strictly smaller offset into the batch of fresh uniform variates. -/
theorem worseCountBefore_strictMono (env : Env N D R)
    (kde : Fin N → Fin D → R) (cur : Walkers N D R) (s : SState N D R)
    {v w : Fin N} (hvw : v < w) (hv : accUncond env kde cur s v = false) :
    worseCountBefore env kde cur s v < worseCountBefore env kde cur s w := by
  unfold worseCountBefore
  refine Finset.card_lt_card ((Finset.ssubset_iff_of_subset ?_).2 ⟨v, ?_, ?_⟩)
  · intro j hj
    rw [Finset.mem_filter] at hj ⊢
    exact ⟨hj.1, hj.2.1.trans hvw, hj.2.2⟩
  · rw [Finset.mem_filter]
    exact ⟨Finset.mem_univ v, hvw, hv⟩
  · rw [Finset.mem_filter]
    rintro ⟨-, hlt, -⟩
    exact absurd hlt (lt_irrefl v)

/-- Claim C1: in every step, the log Metropolis-Hastings acceptance ratio of
line 135 equals the sum of the candidate log prior and log likelihood, minus
the sum of the current log prior and log likelihood, plus the current log
proposal density, minus the candidate log proposal density - in particular
the proposal-correction term `+ lnq_current - lnq_candidate` is included. -/
theorem c1_mh_formula {F : Type} [LinearOrderedField F] (env : Env N D F)
    (kde : Fin N → Fin D → F) (cur : Walkers N D F) (s : SState N D F)
    (w : Fin N) :
    lnRatioFn env kde cur s w =
      (env.lnprior (draws env kde s) w + env.lnlike (draws env kde s) w)
        - (cur.lnprior w + cur.lnlike w)
        + (cur.lnq w - env.kdeEval kde (draws env kde s) w) := by
  unfold lnRatioFn
  ring

/-- Claim C2: a walker with positive log ratio is accepted unconditionally;
a walker with non-positive log ratio is accepted exactly when its log ratio
exceeds the log of its own fresh uniform variate; the step consumes exactly
one variate per walker with non-positive log ratio and none for the others,
and distinct such walkers consume distinct fresh variates. -/
theorem c2_accept_rule (env : Env N D R) (kde : Fin N → Fin D → R)
    (cur : Walkers N D R) (s : SState N D R) (w : Fin N) :
    (0 < lnRatioFn env kde cur s w → accFn env kde cur s w = true) ∧
    (¬ 0 < lnRatioFn env kde cur s w →
      (accFn env kde cur s w = true ↔
        env.log (env.rand (s.rngUsed + worseCountBefore env kde cur s w))
          < lnRatioFn env kde cur s w)) ∧
    (storeStep env kde cur s).rngUsed = s.rngUsed + nworse env kde cur s ∧
    nworse env kde cur s =
      (Finset.univ.filter
        (fun v : Fin N => ¬ 0 < lnRatioFn env kde cur s v)).card ∧
    (∀ v : Fin N, ¬ 0 < lnRatioFn env kde cur s v →
      ¬ 0 < lnRatioFn env kde cur s w → v ≠ w →
      s.rngUsed + worseCountBefore env kde cur s v ≠
        s.rngUsed + worseCountBefore env kde cur s w) := by
  refine ⟨?_, ?_, rfl, ?_, ?_⟩
  · intro h
    simp [accFn, accUncond, h]
  · intro h
    have h1 : accUncond env kde cur s w = false :=
      (accUncond_eq_false_iff env kde cur s w).2 h
    simp [accFn, h1]
  · unfold nworse
    refine congrArg Finset.card (Finset.filter_congr ?_)
    intro j _
    simp [accUncond]
  · intro v hv hw hne
    have hv2 : accUncond env kde cur s v = false :=
      (accUncond_eq_false_iff env kde cur s v).2 hv
    have hw2 : accUncond env kde cur s w = false :=
      (accUncond_eq_false_iff env kde cur s w).2 hw
    have hne2 : worseCountBefore env kde cur s v ≠
        worseCountBefore env kde cur s w := by
      rcases lt_or_gt_of_ne hne with hlt | hgt
      · exact Nat.ne_of_lt (worseCountBefore_strictMono env kde cur s hlt hv2)
      · exact
          (Nat.ne_of_lt (worseCountBefore_strictMono env kde cur s hgt hw2)).symm
    omega

/-- Witness for C2 at a concrete one-walker instance: with log ratio one the
walker is accepted, with log ratio zero it is rejected (its variate is one,
whose modeled log is zero, and zero is not below zero). -/
theorem c2_accept_rule_witness :
    accFn envW kW curP sW ⟨0, Nat.zero_lt_one⟩ = true ∧
    accFn envW kW curZ sW ⟨0, Nat.zero_lt_one⟩ = false := by
  constructor
  · exact (c2_accept_rule envW kW curP sW ⟨0, Nat.zero_lt_one⟩).1 (by decide)
  · have h := (c2_accept_rule envW kW curZ sW ⟨0, Nat.zero_lt_one⟩).2.1
      (by decide)
    refine Bool.eq_false_iff.2 (fun hh => ?_)
    exact (by decide :
      ¬ envW.log (envW.rand (sW.rngUsed +
          worseCountBefore envW kW curZ sW ⟨0, Nat.zero_lt_one⟩))
        < lnRatioFn envW kW curZ sW ⟨0, Nat.zero_lt_one⟩) (h.1 hh)

/-- Claim C3: the masked update of lines 146-150 leaves a rejected walker
with exactly its previous position, log prior, log likelihood and log
proposal density, and gives an accepted walker all four candidate values in
the same update. -/
theorem c3_frame_update (env : Env N D R) (kde : Fin N → Fin D → R)
    (cur : Walkers N D R) (s : SState N D R) (w : Fin N) :
    (accFn env kde cur s w = false →
      (updWalkers env kde cur s).p w = cur.p w ∧
      (updWalkers env kde cur s).lnprior w = cur.lnprior w ∧
      (updWalkers env kde cur s).lnlike w = cur.lnlike w ∧
      (updWalkers env kde cur s).lnq w = cur.lnq w) ∧
    (accFn env kde cur s w = true →
      (updWalkers env kde cur s).p w = draws env kde s w ∧
      (updWalkers env kde cur s).lnprior w = env.lnprior (draws env kde s) w ∧
      (updWalkers env kde cur s).lnlike w = env.lnlike (draws env kde s) w ∧
      (updWalkers env kde cur s).lnq w = env.kdeEval kde (draws env kde s) w) :=
  ⟨updWalkers_eq_of_not_acc env kde cur s w,
   updWalkers_eq_of_acc env kde cur s w⟩

/-- Witness for C3 at a concrete one-walker instance: the rejected walker of
`curZ` keeps its position, the accepted walker of `curP` moves to the
candidate position. -/
theorem c3_frame_update_witness :
    (updWalkers envW kW curZ sW).p ⟨0, Nat.zero_lt_one⟩ =
      curZ.p ⟨0, Nat.zero_lt_one⟩ ∧
    (updWalkers envW kW curP sW).p ⟨0, Nat.zero_lt_one⟩ =
      draws envW kW sW ⟨0, Nat.zero_lt_one⟩ := by
  constructor
  · exact ((c3_frame_update envW kW curZ sW ⟨0, Nat.zero_lt_one⟩).1
      (by decide)).1
  · exact ((c3_frame_update envW kW curP sW ⟨0, Nat.zero_lt_one⟩).2
      (by decide)).1

/-- Claim C5, corrected part: the proposal is rebuilt after a step exactly
when the incremented cumulative iteration counter is a multiple of the
update interval; on a rebuild the new proposal is constructed from the
post-acceptance ensemble positions, otherwise the proposal object is left
untouched. -/
theorem c5_rebuild_mod (env : Env N D R) (ui : ℕ) (kde : Fin N → Fin D → R)
    (cur : Walkers N D R) (s : SState N D R) :
    ((s.iterations + 1) % ui = 0 →
      (stepBody env ui kde cur s).1 = (updWalkers env kde cur s).p) ∧
    ((s.iterations + 1) % ui ≠ 0 → (stepBody env ui kde cur s).1 = kde) := by
  constructor <;> intro h <;> simp [stepBody, h]

/-- Witness for C5 at a concrete instance: with update interval one the
returned proposal is the post-acceptance ensemble, with update interval two
(and counter zero) the proposal is untouched. -/
theorem c5_rebuild_mod_witness :
    (stepBody envW 1 kW curZ sW).1 = (updWalkers envW kW curZ sW).p ∧
    (stepBody envW 2 kW curZ sW).1 = kW :=
  ⟨(c5_rebuild_mod envW 1 kW curZ sW).1 (by decide),
   (c5_rebuild_mod envW 2 kW curZ sW).2 (by decide)⟩

/-- Counterexample for C5 as stated: a sampler left with cumulative counter
one by an earlier call, run for a single further step with update interval
two, rebuilds its proposal at the first step of that call (the counter
reaches two), although the claim predicts rebuilds only at call steps two,
four, and so on - so a one-step call should leave the proposal untouched.
The proposal before the call was built from `kW` and after the call it is
built from `pW`, two different snapshots. -/
theorem c5_rebuild_cex :
    (sample envW s5 pW none none none 1 2).1.kde = some pW ∧
    s5.kde = some kW ∧ pW ≠ kW :=
  ⟨by decide, rfl, by decide⟩

/-- Claim C6: when a step triggers a rebuild, every log proposal density in
the returned walker data is the new proposal evaluated at the current
post-acceptance positions, while positions, log priors and log likelihoods
are exactly those left by the masked update. -/
theorem c6_rebuild_rescore (env : Env N D R) (ui : ℕ)
    (kde : Fin N → Fin D → R) (cur : Walkers N D R) (s : SState N D R)
    (h : (s.iterations + 1) % ui = 0) :
    (stepBody env ui kde cur s).2.1.p = (updWalkers env kde cur s).p ∧
    (stepBody env ui kde cur s).2.1.lnprior =
      (updWalkers env kde cur s).lnprior ∧
    (stepBody env ui kde cur s).2.1.lnlike =
      (updWalkers env kde cur s).lnlike ∧
    (stepBody env ui kde cur s).2.1.lnq =
      env.kdeEval (updWalkers env kde cur s).p (updWalkers env kde cur s).p :=
  by simp [stepBody, h]

/-- Witness for C6 at a concrete instance with update interval one. -/
theorem c6_rebuild_rescore_witness :
    (stepBody envW 1 kW curZ sW).2.1.lnq =
      envW.kdeEval (updWalkers envW kW curZ sW).p
        (updWalkers envW kW curZ sW).p :=
  (c6_rebuild_rescore envW 1 kW curZ sW (by decide)).2.2.2

/-- Claim C8: a walker whose log ratio is NaN is rejected - the NaN compares
false both against zero and against the log of the uniform variate, so the
acceptance flag is false and the walker keeps all four current values. -/
theorem c8_nan_reject (env : Env N D (FVal R)) (kde : Fin N → Fin D → FVal R)
    (cur : Walkers N D (FVal R)) (s : SState N D (FVal R)) (w : Fin N)
    (h : lnRatioFn env kde cur s w = FVal.nan) :
    accFn env kde cur s w = false ∧
    (updWalkers env kde cur s).p w = cur.p w ∧
    (updWalkers env kde cur s).lnprior w = cur.lnprior w ∧
    (updWalkers env kde cur s).lnlike w = cur.lnlike w ∧
    (updWalkers env kde cur s).lnq w = cur.lnq w := by
  have h1 : accUncond env kde cur s w = false := by
    unfold accUncond
    rw [h]
    exact decide_eq_false (FVal.not_lt_nan _)
  have hacc : accFn env kde cur s w = false := by
    unfold accFn
    rw [h1, h]
    simp [decide_eq_false (FVal.not_lt_nan _)]
  have h2 := updWalkers_eq_of_not_acc env kde cur s w hacc
  exact ⟨hacc, h2.1, h2.2.1, h2.2.2.1, h2.2.2.2⟩

/-- Witness for C8: a concrete prior evaluator returning NaN makes the log
ratio NaN, and the walker is indeed rejected and left in place. -/
theorem c8_nan_reject_witness :
    accFn envN kN curN sN ⟨0, Nat.zero_lt_one⟩ = false ∧
    (updWalkers envN kN curN sN).p ⟨0, Nat.zero_lt_one⟩ =
      curN.p ⟨0, Nat.zero_lt_one⟩ := by
  have h := c8_nan_reject envN kN curN sN ⟨0, Nat.zero_lt_one⟩ (by decide)
  exact ⟨h.1, h.2.1⟩

/-- The sampler state returned by a loop pass is the one written by the
history bookkeeping, whether or not the pass rebuilt the proposal. -/
theorem stepBody_state (env : Env N D R) (ui : ℕ) (kde : Fin N → Fin D → R)
    (cur : Walkers N D R) (s : SState N D R) :
    (stepBody env ui kde cur s).2.2 = storeStep env kde cur s := by
  simp only [stepBody]
  split <;> rfl

/-- The history bookkeeping of one step advances the counter by one,
consumes `nworse` variates and keeps every history length. -/
theorem storeStep_lengths (env : Env N D R) (kde : Fin N → Fin D → R)
    (cur : Walkers N D R) (s : SState N D R) :
    (storeStep env kde cur s).iterations = s.iterations + 1 ∧
    (storeStep env kde cur s).chain.length = s.chain.length ∧
    (storeStep env kde cur s).lnpost.length = s.lnpost.length ∧
    (storeStep env kde cur s).lnprop.length = s.lnprop.length ∧
    (storeStep env kde cur s).accepted.length = s.accepted.length := by
  refine ⟨rfl, ?_, ?_, ?_, ?_⟩ <;> simp [storeStep]

/-- The history bookkeeping of one step only writes the slot indexed by the
current counter. -/
theorem storeStep_get (env : Env N D R) (kde : Fin N → Fin D → R)
    (cur : Walkers N D R) (s : SState N D R) (i : ℕ)
    (h : i ≠ s.iterations) :
    (storeStep env kde cur s).chain[i]? = s.chain[i]? ∧
    (storeStep env kde cur s).lnpost[i]? = s.lnpost[i]? ∧
    (storeStep env kde cur s).lnprop[i]? = s.lnprop[i]? ∧
    (storeStep env kde cur s).accepted[i]? = s.accepted[i]? := by
  simp only [storeStep]
  exact ⟨List.getElem?_set_ne (Ne.symm h), List.getElem?_set_ne (Ne.symm h),
    List.getElem?_set_ne (Ne.symm h), List.getElem?_set_ne (Ne.symm h)⟩

/-- Running the loop `n` times advances the counter by exactly `n`, never
changes any history length, and never touches any slot below the counter the
loop started from. -/
theorem runSteps_state_facts (env : Env N D R) (ui : ℕ) :
    ∀ (n : ℕ) (kde : Fin N → Fin D → R) (cur : Walkers N D R)
      (s : SState N D R),
      (runSteps env ui n kde cur s).2.2.iterations = s.iterations + n ∧
      (runSteps env ui n kde cur s).2.2.chain.length = s.chain.length ∧
      (runSteps env ui n kde cur s).2.2.lnpost.length = s.lnpost.length ∧
      (runSteps env ui n kde cur s).2.2.lnprop.length = s.lnprop.length ∧
      (runSteps env ui n kde cur s).2.2.accepted.length =
        s.accepted.length ∧
      ∀ i, i < s.iterations →
        (runSteps env ui n kde cur s).2.2.chain[i]? = s.chain[i]? ∧
        (runSteps env ui n kde cur s).2.2.lnpost[i]? = s.lnpost[i]? ∧
        (runSteps env ui n kde cur s).2.2.lnprop[i]? = s.lnprop[i]? ∧
        (runSteps env ui n kde cur s).2.2.accepted[i]? = s.accepted[i]? := by
  intro n
  induction n with
  | zero =>
    intro kde cur s
    exact ⟨rfl, rfl, rfl, rfl, rfl, fun i _ => ⟨rfl, rfl, rfl, rfl⟩⟩
  | succ n ih =>
    intro kde cur s
    have hrec := ih (stepBody env ui kde cur s).1
      (stepBody env ui kde cur s).2.1 (stepBody env ui kde cur s).2.2
    rw [stepBody_state env ui kde cur s] at hrec
    have hrun : runSteps env ui (n + 1) kde cur s
        = runSteps env ui n (stepBody env ui kde cur s).1
            (stepBody env ui kde cur s).2.1
            (stepBody env ui kde cur s).2.2 := rfl
    rw [hrun, stepBody_state env ui kde cur s]
    have hlen := storeStep_lengths env kde cur s
    refine ⟨?_, ?_, ?_, ?_, ?_, ?_⟩
    · rw [hrec.1, hlen.1]
      omega
    · rw [hrec.2.1, hlen.2.1]
    · rw [hrec.2.2.1, hlen.2.2.1]
    · rw [hrec.2.2.2.1, hlen.2.2.2.1]
    · rw [hrec.2.2.2.2.1, hlen.2.2.2.2]
    · intro i hi
      have hi1 : i < (storeStep env kde cur s).iterations := by
        rw [hlen.1]
        omega
      have hget := storeStep_get env kde cur s i (by omega)
      have hr := hrec.2.2.2.2.2 i hi1
      exact ⟨hr.1.trans hget.1, hr.2.1.trans hget.2.1,
        hr.2.2.1.trans hget.2.2.1, hr.2.2.2.trans hget.2.2.2⟩

/-- The growth phase appends exactly `k` slots to each history, touching
neither the counter nor any existing slot. -/
theorem growHist_facts (s : SState N D R) (k : ℕ) :
    (growHist s k).iterations = s.iterations ∧
    (growHist s k).chain.length = s.chain.length + k ∧
    (growHist s k).lnpost.length = s.lnpost.length + k ∧
    (growHist s k).lnprop.length = s.lnprop.length + k ∧
    (growHist s k).accepted.length = s.accepted.length + k ∧
    (∀ i, i < s.chain.length → (growHist s k).chain[i]? = s.chain[i]?) ∧
    (∀ i, i < s.lnpost.length → (growHist s k).lnpost[i]? = s.lnpost[i]?) ∧
    (∀ i, i < s.lnprop.length → (growHist s k).lnprop[i]? = s.lnprop[i]?) ∧
    (∀ i, i < s.accepted.length →
      (growHist s k).accepted[i]? = s.accepted[i]?) := by
  refine ⟨rfl, by simp [growHist], by simp [growHist], by simp [growHist],
    by simp [growHist], ?_, ?_, ?_, ?_⟩ <;>
  · intro i hi
    simp only [growHist]
    rw [List.getElem?_append, if_pos hi]

/-- Facts about a completed `sample` call: the counter advances by the step
count, each history grows by the step count, and every slot that existed
before the call (below both the old counter and the old length) is
unchanged. -/
theorem sample_facts (env : Env N D R) (s : SState N D R)
    (p0 : Fin N → Fin D → R) (o1 o2 o3 : Option (Fin N → R)) (k ui : ℕ) :
    (sample env s p0 o1 o2 o3 k ui).1.iterations = s.iterations + k ∧
    (sample env s p0 o1 o2 o3 k ui).1.chain.length = s.chain.length + k ∧
    (sample env s p0 o1 o2 o3 k ui).1.lnpost.length = s.lnpost.length + k ∧
    (sample env s p0 o1 o2 o3 k ui).1.lnprop.length = s.lnprop.length + k ∧
    (sample env s p0 o1 o2 o3 k ui).1.accepted.length =
      s.accepted.length + k ∧
    ∀ i, i < s.iterations →
      (i < s.chain.length →
        (sample env s p0 o1 o2 o3 k ui).1.chain[i]? = s.chain[i]?) ∧
      (i < s.lnpost.length →
        (sample env s p0 o1 o2 o3 k ui).1.lnpost[i]? = s.lnpost[i]?) ∧
      (i < s.lnprop.length →
        (sample env s p0 o1 o2 o3 k ui).1.lnprop[i]? = s.lnprop[i]?) ∧
      (i < s.accepted.length →
        (sample env s p0 o1 o2 o3 k ui).1.accepted[i]? = s.accepted[i]?) := by
  have hrun := runSteps_state_facts env ui k (resolveOpt s.kde p0)
    { p := p0, lnprior := resolveOpt o1 (env.lnprior p0),
      lnlike := resolveOpt o2 (env.lnlike p0),
      lnq := resolveOpt o3 (env.kdeEval (resolveOpt s.kde p0) p0) }
    (growHist { s with kde := some (resolveOpt s.kde p0) } k)
  have hgrow := growHist_facts { s with kde := some (resolveOpt s.kde p0) } k
  have hs : sample env s p0 o1 o2 o3 k ui =
      ((fun out => ({ out.2.2 with kde := some out.1 }, out.2.1))
        (runSteps env ui k (resolveOpt s.kde p0)
          { p := p0, lnprior := resolveOpt o1 (env.lnprior p0),
            lnlike := resolveOpt o2 (env.lnlike p0),
            lnq := resolveOpt o3 (env.kdeEval (resolveOpt s.kde p0) p0) }
          (growHist { s with kde := some (resolveOpt s.kde p0) } k))) := rfl
  rw [hs]
  refine ⟨?_, ?_, ?_, ?_, ?_, ?_⟩
  · show (runSteps env ui k _ _ _).2.2.iterations = s.iterations + k
    rw [hrun.1, hgrow.1]
  · show (runSteps env ui k _ _ _).2.2.chain.length = s.chain.length + k
    rw [hrun.2.1, hgrow.2.1]
  · show (runSteps env ui k _ _ _).2.2.lnpost.length = s.lnpost.length + k
    rw [hrun.2.2.1, hgrow.2.2.1]
  · show (runSteps env ui k _ _ _).2.2.lnprop.length = s.lnprop.length + k
    rw [hrun.2.2.2.1, hgrow.2.2.2.1]
  · show (runSteps env ui k _ _ _).2.2.accepted.length
      = s.accepted.length + k
    rw [hrun.2.2.2.2.1, hgrow.2.2.2.2.1]
  · intro i hi
    have hi2 : i <
        (growHist { s with kde := some (resolveOpt s.kde p0) } k).iterations :=
      by rw [hgrow.1]; exact hi
    have hr := hrun.2.2.2.2.2 i hi2
    exact ⟨fun hc => hr.1.trans (hgrow.2.2.2.2.2.1 i hc),
      fun hc => hr.2.1.trans (hgrow.2.2.2.2.2.2.1 i hc),
      fun hc => hr.2.2.1.trans (hgrow.2.2.2.2.2.2.2.1 i hc),
      fun hc => hr.2.2.2.trans (hgrow.2.2.2.2.2.2.2.2 i hc)⟩

/-- Claim C4: a completed call of `sample` with `k` steps advances the
cumulative counter by exactly `k`, grows each of the four histories by
exactly `k` slots (appended at the tail as zero-initialized slots by the
growth phase) and leaves every pre-existing history entry unchanged. -/
theorem c4_history_growth (env : Env N D R) (s : SState N D R)
    (p0 : Fin N → Fin D → R) (o1 o2 o3 : Option (Fin N → R)) (k ui : ℕ)
    (h1 : s.chain.length = s.iterations) (h2 : s.lnpost.length = s.iterations)
    (h3 : s.lnprop.length = s.iterations)
    (h4 : s.accepted.length = s.iterations) :
    (sample env s p0 o1 o2 o3 k ui).1.iterations = s.iterations + k ∧
    (sample env s p0 o1 o2 o3 k ui).1.chain.length = s.chain.length + k ∧
    (sample env s p0 o1 o2 o3 k ui).1.lnpost.length = s.lnpost.length + k ∧
    (sample env s p0 o1 o2 o3 k ui).1.lnprop.length = s.lnprop.length + k ∧
    (sample env s p0 o1 o2 o3 k ui).1.accepted.length =
      s.accepted.length + k ∧
    (∀ i, i < s.iterations →
      (sample env s p0 o1 o2 o3 k ui).1.chain[i]? = s.chain[i]? ∧
      (sample env s p0 o1 o2 o3 k ui).1.lnpost[i]? = s.lnpost[i]? ∧
      (sample env s p0 o1 o2 o3 k ui).1.lnprop[i]? = s.lnprop[i]? ∧
      (sample env s p0 o1 o2 o3 k ui).1.accepted[i]? = s.accepted[i]?) ∧
    (growHist s k).chain = s.chain ++ List.replicate k (fun _ _ => 0) ∧
    (growHist s k).lnpost = s.lnpost ++ List.replicate k (fun _ => 0) ∧
    (growHist s k).lnprop = s.lnprop ++ List.replicate k (fun _ => 0) ∧
    (growHist s k).accepted = s.accepted ++ List.replicate k (fun _ => false)
    := by
  have hf := sample_facts env s p0 o1 o2 o3 k ui
  refine ⟨hf.1, hf.2.1, hf.2.2.1, hf.2.2.2.1, hf.2.2.2.2.1, ?_,
    rfl, rfl, rfl, rfl⟩
  intro i hi
  have hr := hf.2.2.2.2.2 i hi
  exact ⟨hr.1 (h1 ▸ hi), hr.2.1 (h2 ▸ hi), hr.2.2.1 (h3 ▸ hi),
    hr.2.2.2 (h4 ▸ hi)⟩

/-- Witness for C4 at a concrete fresh sampler run for one step. -/
theorem c4_history_growth_witness :
    (sample envW (initState 1 1 ℤ) pW none none none 1 3).1.iterations
      = 0 + 1 ∧
    (sample envW (initState 1 1 ℤ) pW none none none 1 3).1.chain.length
      = 0 + 1 := by
  have h := c4_history_growth envW (initState 1 1 ℤ) pW none none none 1 3
    rfl rfl rfl rfl
  exact ⟨h.1, h.2.1⟩

/-- Counterexample for C7 as stated: in a fresh two-step call, the state
between the first and the second step (the loop of a two-step call is one
step applied to the grown state followed by a one-step loop, as the first
conjunct records) has history length two but counter one, because all four
histories are pre-grown by the full step count before the loop starts.  So
mid-run the common history length does not equal the counter. -/
theorem c7_len_cex :
    (sample envW (initState 1 1 ℤ) pW none none none 2 10 =
      ((fun out => ({ out.2.2 with kde := some out.1 }, out.2.1))
        (runSteps envW 10 1
          (stepBody envW 10 pW curInit sGrown).1
          (stepBody envW 10 pW curInit sGrown).2.1
          (stepBody envW 10 pW curInit sGrown).2.2))) ∧
    (stepBody envW 10 pW curInit sGrown).2.2.chain.length = 2 ∧
    (stepBody envW 10 pW curInit sGrown).2.2.lnpost.length = 2 ∧
    (stepBody envW 10 pW curInit sGrown).2.2.lnprop.length = 2 ∧
    (stepBody envW 10 pW curInit sGrown).2.2.accepted.length = 2 ∧
    (stepBody envW 10 pW curInit sGrown).2.2.iterations = 1 ∧
    (2 : ℕ) ≠ 1 :=
  ⟨rfl, by decide, by decide, by decide, by decide, by decide, by decide⟩

/-- Claim C7, corrected part: the four histories always share one common
length; that length equals the counter at construction and again after every
completed `sample` call, while each loop pass preserves all four lengths and
advances the counter by one (so mid-call the pre-grown length stays ahead of
the counter until the final step completes). -/
theorem c7_len_invariant (env : Env N D R) (ui : ℕ)
    (kde : Fin N → Fin D → R) (cur : Walkers N D R) (s : SState N D R)
    (p0 : Fin N → Fin D → R) (o1 o2 o3 : Option (Fin N → R)) (k : ℕ) :
    ((initState N D R).chain.length = (initState N D R).iterations ∧
     (initState N D R).lnpost.length = (initState N D R).iterations ∧
     (initState N D R).lnprop.length = (initState N D R).iterations ∧
     (initState N D R).accepted.length = (initState N D R).iterations) ∧
    ((stepBody env ui kde cur s).2.2.chain.length = s.chain.length ∧
     (stepBody env ui kde cur s).2.2.lnpost.length = s.lnpost.length ∧
     (stepBody env ui kde cur s).2.2.lnprop.length = s.lnprop.length ∧
     (stepBody env ui kde cur s).2.2.accepted.length = s.accepted.length ∧
     (stepBody env ui kde cur s).2.2.iterations = s.iterations + 1) ∧
    (s.chain.length = s.iterations → s.lnpost.length = s.iterations →
     s.lnprop.length = s.iterations → s.accepted.length = s.iterations →
     ((sample env s p0 o1 o2 o3 k ui).1.chain.length =
        (sample env s p0 o1 o2 o3 k ui).1.iterations ∧
      (sample env s p0 o1 o2 o3 k ui).1.lnpost.length =
        (sample env s p0 o1 o2 o3 k ui).1.iterations ∧
      (sample env s p0 o1 o2 o3 k ui).1.lnprop.length =
        (sample env s p0 o1 o2 o3 k ui).1.iterations ∧
      (sample env s p0 o1 o2 o3 k ui).1.accepted.length =
        (sample env s p0 o1 o2 o3 k ui).1.iterations)) := by
  have hlen := storeStep_lengths env kde cur s
  have hstate := stepBody_state env ui kde cur s
  refine ⟨⟨rfl, rfl, rfl, rfl⟩,
    ⟨by rw [hstate, hlen.2.1], by rw [hstate, hlen.2.2.1],
     by rw [hstate, hlen.2.2.2.1], by rw [hstate, hlen.2.2.2.2],
     by rw [hstate, hlen.1]⟩, ?_⟩
  intro h1 h2 h3 h4
  have hf := sample_facts env s p0 o1 o2 o3 k ui
  exact ⟨by rw [hf.2.1, hf.1, h1], by rw [hf.2.2.1, hf.1, h2],
    by rw [hf.2.2.2.1, hf.1, h3], by rw [hf.2.2.2.2.1, hf.1, h4]⟩

/-- Witness for C7 at a concrete fresh sampler run for one step. -/
theorem c7_len_invariant_witness :
    (sample envW (initState 1 1 ℤ) pW none none none 1 3).1.chain.length =
      (sample envW (initState 1 1 ℤ) pW none none none 1 3).1.iterations :=
  ((c7_len_invariant envW 3 kW curZ (initState 1 1 ℤ) pW none none none
    1).2.2 rfl rfl rfl rfl).1

end Kombine

namespace KShape

/-- A broadcast fails exactly on two lengths that differ with neither equal
to one. -/
theorem bcast_none (f : ℤ → ℤ → ℤ) (a b : Vec)
    (hab : a.length ≠ b.length) (ha : a.length ≠ 1) (hb : b.length ≠ 1) :
    bcast f a b = none := by
  unfold bcast
  rw [if_neg hab, if_neg ha, if_neg hb]

/-- The ratio expression of line 135 fails when the current log prior array
is broadcast-incompatible with the length-`n` candidate arrays. -/
theorem ratioSh_none (a b q c d e : Vec) (n : ℕ)
    (hA : a.length = n) (hB : b.length = n) (hq : q.length ≠ n)
    (hn1 : n ≠ 1) (hq1 : q.length ≠ 1) :
    ratioSh a b q c d e = none := by
  unfold ratioSh
  have h1 : bcast (· + ·) a b = some (List.zipWith (· + ·) a b) := by
    unfold bcast
    rw [if_pos (hA.trans hB.symm)]
  have hlen : (List.zipWith (· + ·) a b).length = n := by
    rw [List.length_zipWith, hA, hB, min_self]
  have h2 : bcast (· - ·) (List.zipWith (· + ·) a b) q = none := by
    refine bcast_none _ _ _ ?_ ?_ hq1
    · rw [hlen]
      exact fun hh => hq hh.symm
    · rw [hlen]
      exact hn1
  rw [h1, Option.some_bind, h2, Option.none_bind]

/-- A step whose ratio expression fails aborts at once, leaving the sampler
state exactly as the step found it. -/
theorem stepSh_err (env : EnvSh) (ui : ℕ) (kde p : Mat)
    (lnprior lnlike lnq : Vec) (s : SStateSh)
    (h : ratioSh (env.lnprior (env.kdeDraw kde s.iterations))
      (env.lnlike (env.kdeDraw kde s.iterations)) lnprior lnlike lnq
      (env.kdeEval kde (env.kdeDraw kde s.iterations)) = none) :
    stepSh env ui kde p lnprior lnlike lnq s = .error s := by
  simp only [stepSh]
  rw [h]

/-- A failing first step aborts the whole loop with the same payload. -/
theorem runSh_err (env : EnvSh) (ui : ℕ) (n : ℕ) (kde p : Mat)
    (a b c : Vec) (s e : SStateSh)
    (h : stepSh env ui kde p a b c s = .error e) :
    runSh env ui (n + 1) kde p a b c s = .error e := by
  simp only [runSh]
  rw [h]

/-- Counterexample for C9 as stated: a fresh two-walker sampler given a
supplied log prior array of the wrong length (three entries instead of two)
does fail, but only inside the first step, after the proposal has been
constructed and all four histories have been grown by one slot - the state
at the failure has history length one and a proposal, while the state before
the call had history length zero and no proposal.  So the call does not fail
before mutating the sampler state. -/
theorem c9_shape_cex :
    isErr (sampleSh envSh2 (initSh 2 1) [[1], [2]] (some [0, 0, 0]) none none
      1 10) = true ∧
    (errPayload (initSh 2 1) (sampleSh envSh2 (initSh 2 1) [[1], [2]]
      (some [0, 0, 0]) none none 1 10)).chain.length = 1 ∧
    (errPayload (initSh 2 1) (sampleSh envSh2 (initSh 2 1) [[1], [2]]
      (some [0, 0, 0]) none none 1 10)).lnpost.length = 1 ∧
    (errPayload (initSh 2 1) (sampleSh envSh2 (initSh 2 1) [[1], [2]]
      (some [0, 0, 0]) none none 1 10)).lnprop.length = 1 ∧
    (errPayload (initSh 2 1) (sampleSh envSh2 (initSh 2 1) [[1], [2]]
      (some [0, 0, 0]) none none 1 10)).accepted.length = 1 ∧
    (errPayload (initSh 2 1) (sampleSh envSh2 (initSh 2 1) [[1], [2]]
      (some [0, 0, 0]) none none 1 10)).kde = some [[1], [2]] ∧
    (initSh 2 1).chain.length = 0 ∧ (initSh 2 1).kde = none := by
  decide

/-- Claim C9, corrected part: a supplied optional array whose length is
broadcast-incompatible with the walker count is not validated up front; the
call aborts at the first arithmetic use of the array inside the first step,
by which time the proposal has been built (here: from the initial positions)
and all four histories have been grown by the full requested step count,
although the iteration counter is still untouched. -/
theorem c9_shape_amended (env : EnvSh) (s : SStateSh) (p0 : Mat) (q : Vec)
    (k ui : ℕ) (hk : 1 ≤ k) (hkde : s.kde = none)
    (hprior : ∀ m, (env.lnprior m).length = s.nw)
    (hlike : ∀ m, (env.lnlike m).length = s.nw)
    (hq : q.length ≠ s.nw) (hq1 : q.length ≠ 1) (hn1 : s.nw ≠ 1) :
    sampleSh env s p0 (some q) none none k ui =
      .error (growSh { s with kde := some p0 } k) ∧
    (growSh { s with kde := some p0 } k).iterations = s.iterations ∧
    (growSh { s with kde := some p0 } k).rngUsed = s.rngUsed ∧
    (growSh { s with kde := some p0 } k).chain.length = s.chain.length + k ∧
    (growSh { s with kde := some p0 } k).lnpost.length =
      s.lnpost.length + k ∧
    (growSh { s with kde := some p0 } k).lnprop.length =
      s.lnprop.length + k ∧
    (growSh { s with kde := some p0 } k).accepted.length =
      s.accepted.length + k ∧
    (growSh { s with kde := some p0 } k).kde = some p0 := by
  obtain ⟨k1, rfl⟩ : ∃ k1, k = k1 + 1 := ⟨k - 1, by omega⟩
  refine ⟨?_, rfl, rfl, by simp [growSh], by simp [growSh], by simp [growSh],
    by simp [growSh], rfl⟩
  have hratio : ratioSh
      (env.lnprior (env.kdeDraw p0
        (growSh { s with kde := some p0 } (k1 + 1)).iterations))
      (env.lnlike (env.kdeDraw p0
        (growSh { s with kde := some p0 } (k1 + 1)).iterations))
      q (env.lnlike p0) (env.kdeEval p0 p0)
      (env.kdeEval p0 (env.kdeDraw p0
        (growSh { s with kde := some p0 } (k1 + 1)).iterations)) = none :=
    ratioSh_none _ _ _ _ _ _ s.nw (hprior _) (hlike _) hq hn1 hq1
  have hstep := stepSh_err env ui p0 p0 q (env.lnlike p0)
    (env.kdeEval p0 p0) (growSh { s with kde := some p0 } (k1 + 1)) hratio
  have hrun := runSh_err env ui k1 p0 p0 q (env.lnlike p0)
    (env.kdeEval p0 p0) (growSh { s with kde := some p0 } (k1 + 1))
    (growSh { s with kde := some p0 } (k1 + 1)) hstep
  simp only [sampleSh, hkde]
  rw [hrun]

/-- Witness for the corrected C9 at a concrete instance: the two-walker
sampler with a three-entry supplied log prior aborts carrying exactly the
grown state. -/
theorem c9_shape_amended_witness :
    sampleSh envSh2 (initSh 2 1) [[1], [2]] (some [0, 0, 0]) none none 1 10 =
      .error (growSh { initSh 2 1 with kde := some [[1], [2]] } 1) :=
  (c9_shape_amended envSh2 (initSh 2 1) [[1], [2]] [0, 0, 0] 1 10
    (by decide) rfl (fun _ => rfl) (fun _ => rfl) (by decide) (by decide)
    (by decide)).1

end KShape

namespace KStore

open Kombine

variable {N D : ℕ}

/-- A loop pass never writes any matrix object other than the ensemble
object behind `pR`. -/
theorem stepStore_mats (env : Env N D ℤ) (ui : ℕ) (pR aR bR : ℕ)
    (kde : Fin N → Fin D → ℤ) (qR : ℕ) (st : Store N D) (s : SState N D ℤ)
    (i : ℕ) (hi : i ≠ pR) :
    (stepStore env ui pR aR bR kde qR st s).2.2.1.mats[i]? = st.mats[i]? := by
  simp only [stepStore, writeM, writeV, allocV]
  split <;> split <;>
    first
      | rfl
      | exact List.getElem?_set_ne (Ne.symm hi)

/-- Without a rebuild, a loop pass keeps the reference of the `lnq` local
and the number of allocated vector objects; with a rebuild it rebinds the
local to the freshly allocated object (the next free reference) and the
vector count grows by one.  The counter always advances by one. -/
theorem stepStore_facts (env : Env N D ℤ) (ui : ℕ) (pR aR bR : ℕ)
    (kde : Fin N → Fin D → ℤ) (qR : ℕ) (st : Store N D) (s : SState N D ℤ) :
    ((s.iterations + 1) % ui ≠ 0 →
      (stepStore env ui pR aR bR kde qR st s).2.1 = qR ∧
      (stepStore env ui pR aR bR kde qR st s).2.2.1.vecs.length =
        st.vecs.length) ∧
    ((s.iterations + 1) % ui = 0 →
      (stepStore env ui pR aR bR kde qR st s).2.1 = st.vecs.length ∧
      (stepStore env ui pR aR bR kde qR st s).2.2.1.vecs.length =
        st.vecs.length + 1) ∧
    (stepStore env ui pR aR bR kde qR st s).2.2.2.iterations =
      s.iterations + 1 := by
  refine ⟨fun h => ⟨?_, ?_⟩, fun h => ⟨?_, ?_⟩, ?_⟩
  · simp only [stepStore]
    rw [if_neg h]
  · simp only [stepStore]
    rw [if_neg h]
    split <;> simp [writeM, writeV]
  · simp only [stepStore]
    rw [if_pos h]
    split <;> simp [allocV, writeM, writeV]
  · simp only [stepStore]
    rw [if_pos h]
    split <;> simp [allocV, writeM, writeV]
  · simp only [stepStore]
    split <;> rfl

/-- Unfolding of one loop pass of the store model. -/
theorem runStore_succ (env : Env N D ℤ) (ui : ℕ) (pR aR bR : ℕ) (n : ℕ)
    (kde : Fin N → Fin D → ℤ) (qR : ℕ) (st : Store N D) (s : SState N D ℤ) :
    runStore env ui pR aR bR (n + 1) kde qR st s =
      runStore env ui pR aR bR n (stepStore env ui pR aR bR kde qR st s).1
        (stepStore env ui pR aR bR kde qR st s).2.1
        (stepStore env ui pR aR bR kde qR st s).2.2.1
        (stepStore env ui pR aR bR kde qR st s).2.2.2 := rfl

/-- Over a whole loop, every matrix object other than the ensemble object is
untouched. -/
theorem runStore_mats (env : Env N D ℤ) (ui : ℕ) (pR aR bR : ℕ) :
    ∀ (n : ℕ) (kde : Fin N → Fin D → ℤ) (qR : ℕ) (st : Store N D)
      (s : SState N D ℤ) (i : ℕ), i ≠ pR →
      (runStore env ui pR aR bR n kde qR st s).2.2.1.mats[i]? =
        st.mats[i]? := by
  intro n
  induction n with
  | zero => intro kde qR st s i _; rfl
  | succ n ih =>
    intro kde qR st s i hi
    have hstep := stepStore_mats env ui pR aR bR kde qR st s i hi
    have hrec := ih (stepStore env ui pR aR bR kde qR st s).1
      (stepStore env ui pR aR bR kde qR st s).2.1
      (stepStore env ui pR aR bR kde qR st s).2.2.1
      (stepStore env ui pR aR bR kde qR st s).2.2.2 i hi
    exact hrec.trans hstep

/-- If no step of the loop triggers a rebuild, the `lnq` local keeps its
reference throughout. -/
theorem runStore_lnq_of_no_rebuild (env : Env N D ℤ) (ui : ℕ)
    (pR aR bR : ℕ) :
    ∀ (n : ℕ) (kde : Fin N → Fin D → ℤ) (qR : ℕ) (st : Store N D)
      (s : SState N D ℤ),
      (∀ j, 1 ≤ j → j ≤ n → (s.iterations + j) % ui ≠ 0) →
      (runStore env ui pR aR bR n kde qR st s).2.1 = qR := by
  intro n
  induction n with
  | zero => intro kde qR st s _; rfl
  | succ n ih =>
    intro kde qR st s hno
    have h1 : (s.iterations + 1) % ui ≠ 0 := hno 1 le_rfl (by omega)
    have hf := stepStore_facts env ui pR aR bR kde qR st s
    have hq1 := (hf.1 h1).1
    have hside : ∀ j, 1 ≤ j → j ≤ n →
        ((stepStore env ui pR aR bR kde qR st s).2.2.2.iterations + j) % ui
          ≠ 0 := by
      intro j hj1 hjn
      rw [hf.2.2,
        show s.iterations + 1 + j = s.iterations + (j + 1) from by omega]
      exact hno (j + 1) (by omega) (by omega)
    have hrec := ih (stepStore env ui pR aR bR kde qR st s).1
      (stepStore env ui pR aR bR kde qR st s).2.1
      (stepStore env ui pR aR bR kde qR st s).2.2.1
      (stepStore env ui pR aR bR kde qR st s).2.2.2 hside
    rw [runStore_succ]
    exact hrec.trans hq1

/-- The reference of the `lnq` local after a loop is either the incoming one
or at least the incoming vector object count (a fresh allocation). -/
theorem runStore_lnq_cases (env : Env N D ℤ) (ui : ℕ) (pR aR bR : ℕ) :
    ∀ (n : ℕ) (kde : Fin N → Fin D → ℤ) (qR : ℕ) (st : Store N D)
      (s : SState N D ℤ),
      (runStore env ui pR aR bR n kde qR st s).2.1 = qR ∨
      st.vecs.length ≤ (runStore env ui pR aR bR n kde qR st s).2.1 := by
  intro n
  induction n with
  | zero => intro kde qR st s; exact Or.inl rfl
  | succ n ih =>
    intro kde qR st s
    have hf := stepStore_facts env ui pR aR bR kde qR st s
    have hrec := ih (stepStore env ui pR aR bR kde qR st s).1
      (stepStore env ui pR aR bR kde qR st s).2.1
      (stepStore env ui pR aR bR kde qR st s).2.2.1
      (stepStore env ui pR aR bR kde qR st s).2.2.2
    rw [runStore_succ]
    by_cases h : (s.iterations + 1) % ui = 0
    · right
      rcases hrec with hrec | hrec
      · rw [hrec, (hf.2.1 h).1]
      · have := (hf.2.1 h).2
        omega
    · rcases hrec with hrec | hrec
      · left
        rw [hrec, (hf.1 h).1]
      · right
        have := (hf.1 h).2
        omega

/-- If some step of the loop triggers a rebuild, the `lnq` local ends at a
reference at least the incoming vector object count. -/
theorem runStore_lnq_of_rebuild (env : Env N D ℤ) (ui : ℕ) (pR aR bR : ℕ) :
    ∀ (n : ℕ) (kde : Fin N → Fin D → ℤ) (qR : ℕ) (st : Store N D)
      (s : SState N D ℤ),
      (∃ j, 1 ≤ j ∧ j ≤ n ∧ (s.iterations + j) % ui = 0) →
      st.vecs.length ≤ (runStore env ui pR aR bR n kde qR st s).2.1 := by
  intro n
  induction n with
  | zero =>
    intro kde qR st s h
    obtain ⟨j, hj1, hj0, -⟩ := h
    omega
  | succ n ih =>
    intro kde qR st s h
    obtain ⟨j, hj1, hjn, hjm⟩ := h
    have hf := stepStore_facts env ui pR aR bR kde qR st s
    rw [runStore_succ]
    by_cases h1 : (s.iterations + 1) % ui = 0
    · have hq1 := (hf.2.1 h1).1
      have hlen := (hf.2.1 h1).2
      rcases runStore_lnq_cases env ui pR aR bR n
        (stepStore env ui pR aR bR kde qR st s).1
        (stepStore env ui pR aR bR kde qR st s).2.1
        (stepStore env ui pR aR bR kde qR st s).2.2.1
        (stepStore env ui pR aR bR kde qR st s).2.2.2 with hc | hc
      · rw [hc, hq1]
      · omega
    · have hjne : j ≠ 1 := by
        intro hj
        rw [hj] at hjm
        exact h1 hjm
      have harg : ((stepStore env ui pR aR bR kde qR st s).2.2.2.iterations +
          (j - 1)) % ui = 0 := by
        rw [hf.2.2,
          show s.iterations + 1 + (j - 1) = s.iterations + j from by omega]
        exact hjm
      have hrec := ih (stepStore env ui pR aR bR kde qR st s).1
        (stepStore env ui pR aR bR kde qR st s).2.1
        (stepStore env ui pR aR bR kde qR st s).2.2.1
        (stepStore env ui pR aR bR kde qR st s).2.2.2
        ⟨j - 1, by omega, by omega, harg⟩
      have hlen := (hf.1 h1).2
      omega

/-- The prologue of a store-model call resolves the proposal and allocates
the ensemble copy; with all three optional arrays supplied, the returned
prior and likelihood references are the supplied ones, the ensemble
reference is the next free matrix reference, and the store and the final
`lnq` reference come from the loop started on the grown state. -/
theorem sampleStore_facts (env : Env N D ℤ) (s : SState N D ℤ)
    (st : Store N D) (p0 rp rl rq : ℕ) (k ui : ℕ) :
    ∃ (kde0 : Fin N → Fin D → ℤ) (st1 : Store N D) (sG : SState N D ℤ),
      st1.mats = st.mats ++ [readM st p0] ∧
      st1.vecs = st.vecs ∧
      sG.iterations = s.iterations ∧
      (sampleStore env s st p0 (some rp) (some rl) (some rq) k ui).store =
        (runStore env ui st.mats.length rp rl k kde0 rq st1 sG).2.2.1 ∧
      (sampleStore env s st p0 (some rp) (some rl) (some rq) k ui).lnqRef =
        (runStore env ui st.mats.length rp rl k kde0 rq st1 sG).2.1 ∧
      (sampleStore env s st p0 (some rp) (some rl) (some rq)
        k ui).lnpriorRef = rp ∧
      (sampleStore env s st p0 (some rp) (some rl) (some rq)
        k ui).lnlikeRef = rl ∧
      (sampleStore env s st p0 (some rp) (some rl) (some rq) k ui).pRef =
        st.mats.length :=
  ⟨resolveOpt s.kde (readM (allocM st (readM st p0)).1
      (allocM st (readM st p0)).2),
    (allocM st (readM st p0)).1,
    growHist { s with kde := some (resolveOpt s.kde (readM (allocM st
      (readM st p0)).1 (allocM st (readM st p0)).2)) } k,
    rfl, rfl, rfl, rfl, rfl, rfl, rfl, rfl⟩

/-- Counterexample for C10 as stated: a one-step call with update interval
one (so the step rebuilds the proposal) is given the caller array behind
reference zero as its `lnq0`; line 163 rebinds the local to a freshly
allocated array, so the returned log-proposal-density array is reference
three (the fourth object: after the ensemble copy and the two computed
scalar arrays), not the supplied object - the returned array is not aliased
to the caller input, contradicting the claim. -/
theorem c10_alias_cex :
    (sampleStore Kombine.envW (Kombine.initState 1 1 ℤ)
      { vecs := [fun _ => 0], mats := [fun _ _ => 0] } 0 none none (some 0)
      1 1).lnqRef = 3 ∧ (3 : ℕ) ≠ 0 := by
  exact ⟨by decide, by decide⟩

/-- Claim C10, corrected part: the call never mutates the object behind the
initial positions (it works on a fresh copy); supplied `lnprior0` and
`lnlike0` arrays are returned as the very same objects (and updated in place
during the run); a supplied `lnq0` array is returned as the same object
exactly when no step of the call triggers a proposal rebuild - any rebuild
rebinds the local to a fresh allocation, so the returned array is then a
different object. -/
theorem c10_alias_amended (env : Env N D ℤ) (s : SState N D ℤ)
    (st : Store N D) (p0 rp rl rq : ℕ) (k ui : ℕ)
    (hp0 : p0 < st.mats.length) (hrq : rq < st.vecs.length) :
    (sampleStore env s st p0 (some rp) (some rl) (some rq)
      k ui).store.mats[p0]? = st.mats[p0]? ∧
    (sampleStore env s st p0 (some rp) (some rl) (some rq)
      k ui).lnpriorRef = rp ∧
    (sampleStore env s st p0 (some rp) (some rl) (some rq)
      k ui).lnlikeRef = rl ∧
    (sampleStore env s st p0 (some rp) (some rl) (some rq) k ui).pRef =
      st.mats.length ∧
    ((∀ j, 1 ≤ j → j ≤ k → (s.iterations + j) % ui ≠ 0) →
      (sampleStore env s st p0 (some rp) (some rl) (some rq) k ui).lnqRef =
        rq) ∧
    ((∃ j, 1 ≤ j ∧ j ≤ k ∧ (s.iterations + j) % ui = 0) →
      (sampleStore env s st p0 (some rp) (some rl) (some rq) k ui).lnqRef ≠
        rq) := by
  obtain ⟨kde0, st1, sG, hm, hv, hit, hst, hq, hrp, hrl, hpr⟩ :=
    sampleStore_facts env s st p0 rp rl rq k ui
  refine ⟨?_, hrp, hrl, hpr, ?_, ?_⟩
  · rw [hst, runStore_mats env ui st.mats.length rp rl k kde0 rq st1 sG p0
      (by omega), hm, List.getElem?_append, if_pos hp0]
  · intro hno
    rw [hq]
    apply runStore_lnq_of_no_rebuild
    intro j h1 h2
    rw [hit]
    exact hno j h1 h2
  · intro hyes
    rw [hq]
    have hle := runStore_lnq_of_rebuild env ui st.mats.length rp rl k kde0
      rq st1 sG ?_
    · rw [hv] at hle
      omega
    · obtain ⟨j, a, b, c⟩ := hyes
      exact ⟨j, a, b, by rw [hit]; exact c⟩

/-- Witness for the corrected C10 at a concrete instance: a one-step call
with update interval two performs no rebuild, and the supplied `lnq0` object
(reference zero) is indeed returned aliased. -/
theorem c10_alias_amended_witness :
    (sampleStore Kombine.envW (Kombine.initState 1 1 ℤ)
      { vecs := [fun _ => 0], mats := [fun _ _ => 0] } 0 (some 0) (some 0)
      (some 0) 1 2).lnqRef = 0 := by
  have h := c10_alias_amended Kombine.envW (Kombine.initState 1 1 ℤ)
    { vecs := [fun _ => 0], mats := [fun _ _ => 0] } 0 0 0 0 1 2
    (by decide) (by decide)
  exact h.2.2.2.2.1 (by intro j h1 h2; show (0 + j) % 2 ≠ 0; omega)

end KStore
